import Mathlib

/-!
Verification of the xlog concurrent log-delivery pipeline.

This file gives a shallow embedding of the core of the xlog repository:

* the common options (`CommonOpts`) with the level gate (`BetweenMinMax`)
  and key-value enrichment (`WithDefaultKeyValues`) from common_options.go;
* the asynchronous logger (async logger file): `pushLog`, the logging
  methods, the worker loop `logAsync` and `Close`, modelled as a
  small-step transition system over an explicit state with ghost
  histories (records enqueued, records passed to the Formatter, records
  passed to the ErrorHandler);
* the buffered writer decorator (`BufferedWriter`) together with a
  faithful model of Go's `bufio.Writer` (go1.17 `bufio.go`), which the
  repository wraps.

Concurrency is modelled by interleaving: every mutex-protected critical
section of the Go code becomes one atomic transition of the step
relation; goroutine joins (`wg.Wait`) become enabling conditions of
later transitions.
-/

namespace Xlog

/-! ## Levels (level.go) -/

/-- `Level` of logging; a `byte` in the source, modelled as `Nat`. -/
abbrev Level := Nat

/-- `LevelNone` represents no level; used internally for the `Log()` method. -/
def LevelNone : Level := 0

/-- `LevelDebug` is the level for debug logs. -/
def LevelDebug : Level := 10

/-- `LevelInfo` is the level for info logs. -/
def LevelInfo : Level := 20

/-- `LevelWarning` is the level for warning logs. -/
def LevelWarning : Level := 30

/-- `LevelError` is the level for error logs. -/
def LevelError : Level := 40

/-- `LevelCritical` is the level for critical logs. -/
def LevelCritical : Level := 50

/-! ## Key-value records and common options (common_options.go) -/

/-- A dynamically typed log value (`interface{}` in the source); the
claims only need strings and integers. -/
inductive Val where
  | str : String → Val
  | int : Int → Val
deriving DecidableEq, Repr

/-- A log record: the `[]interface{}` key-value slice. -/
abbrev Rec := List Val

/-- `noValue` marker appended when a key-value slice is odd. -/
def noValue : String := "*NoValue*"

/-- `AppendNoValue` appends the `"*NoValue*"` marker when the key-value
slice has odd length (common_options.go). -/
def AppendNoValue (keyValues : List Val) : List Val :=
  if keyValues.length % 2 = 1 then keyValues ++ [Val.str noValue] else keyValues

/-- `CommonOpts` from common_options.go.  The `MinLevel`/`MaxLevel`
providers are modelled by the fixed levels they return
(`FixedLevelProvider`); the `Time` and `Source` providers are modelled
by the values they produce; `ErrHandler` invocations are recorded in a
ghost history of the async-logger state instead. -/
structure CommonOpts where
  minLevel : Level
  maxLevel : Level
  levelLabels : Level → String
  levelKey : String
  timeKey : String
  timeVal : Val
  sourceKey : String
  sourceVal : String
  additionalKeyValues : List Val

/-- The default `LevelLabels` map of `NewCommonOpts` (absent levels map
to the empty string, as a Go map lookup does). -/
def defaultLevelLabels (lvl : Level) : String :=
  if lvl = LevelCritical then "CRITICAL"
  else if lvl = LevelError then "ERROR"
  else if lvl = LevelWarning then "WARN"
  else if lvl = LevelInfo then "INFO"
  else if lvl = LevelDebug then "DEBUG"
  else ""

/-- `NewCommonOpts` from common_options.go: minimum level warning,
maximum level critical, default keys.  The values produced by the
`Time` and `Source` providers are parameters of the model. -/
def NewCommonOpts (timeVal : Val) (sourceVal : String) : CommonOpts :=
  { minLevel := LevelWarning
    maxLevel := LevelCritical
    levelLabels := defaultLevelLabels
    levelKey := "lvl"
    timeKey := "date"
    timeVal := timeVal
    sourceKey := "src"
    sourceVal := sourceVal
    additionalKeyValues := [] }

/-- `CommonOpts.BetweenMinMax`: true iff the level lies in the
`[MinLevel, MaxLevel]` interval. -/
def CommonOpts.BetweenMinMax (opts : CommonOpts) (lvl : Level) : Bool :=
  decide (opts.minLevel ≤ lvl) && decide (lvl ≤ opts.maxLevel)

/-- `CommonOpts.WithDefaultKeyValues`: enrich the caller's key-values
with time, level label, source and additional key-values, in the order
of the source. -/
def CommonOpts.WithDefaultKeyValues (opts : CommonOpts) (lvl : Level)
    (keyValues : List Val) : List Val :=
  let keyValues := AppendNoValue keyValues
  let kv := [Val.str opts.timeKey, opts.timeVal]
  let kv := if lvl ≠ LevelNone then
      kv ++ [Val.str opts.levelKey, Val.str (opts.levelLabels lvl)]
    else kv
  let kv := if opts.sourceKey ≠ "" then
      (if opts.sourceVal ≠ "" then
        kv ++ [Val.str opts.sourceKey, Val.str opts.sourceVal]
      else kv)
    else kv
  let kv := kv ++ opts.additionalKeyValues
  kv ++ keyValues

/-! ## The asynchronous logger (async logger source file)

The Go `AsyncLogger` runs `workersNo` goroutines over a buffered FIFO
channel `entriesChan`.  It is modelled as a labelled transition system:

* `AsyncConfig` holds the immutable configuration (`opts`, the
  formatter — modelled by the error it returns on each record —, the
  worker count and whether the writer is a `BufferedWriter`);
* `AsyncState` holds the channel contents, the `closed` flag, the idle
  worker count, the records currently held by a worker between its
  channel receive and the return of the `Formatter` call, and ghost
  histories of everything that crossed each interface;
* `Step` has one transition per atomic action of the Go code:
  `pushLog`, a worker's channel receive, a worker's `Formatter` call
  (with `ErrHandler` on failure, as in `logAsync`), a worker exiting
  its `range` loop, `Close` flipping the flag and closing the channel
  under the mutex, and `Close` calling `Stop` on the buffered writer
  once `wg.Wait` has seen every worker exit. -/

/-- Immutable configuration of an `AsyncLogger`.  `fmtRes r` is the
error the configured `Formatter` returns when invoked on record `r`
(`none` = success). -/
structure AsyncConfig where
  opts : CommonOpts
  fmtRes : Rec → Option String
  workersNo : Nat
  writerIsBuffered : Bool

/-- Result of one `pushLog` call: rejected by the level gate, dropped
because the logger is closed, or sent to the channel. -/
inductive PushOutcome where
  | gated
  | droppedClosed
  | enqueued
deriving DecidableEq, Repr

/-- State of an `AsyncLogger` together with ghost histories.
`queue` is the FIFO contents of `entriesChan`; `idle` counts live
workers currently blocked on the channel receive; `busy` lists the
records each live worker has received but not yet finished formatting,
in receive order. -/
structure AsyncState where
  queue : List Rec
  closed : Bool
  idle : Nat
  busy : List Rec
  writerStopped : Bool
  enqueued : List Rec
  formatted : List Rec
  handled : List (String × Rec)
deriving DecidableEq, Repr

/-- State right after `NewAsyncLogger` returned: empty channel, all
workers started and waiting on the channel. -/
def initState (cfg : AsyncConfig) : AsyncState :=
  { queue := []
    closed := false
    idle := cfg.workersNo
    busy := []
    writerStopped := false
    enqueued := []
    formatted := []
    handled := [] }

/-- `AsyncLogger.pushLog`: the level gate, then enrichment, then — if
the logger is not closed — the channel send.  Returns the new state and
what happened to the record. -/
def pushLog (cfg : AsyncConfig) (s : AsyncState) (lvl : Level)
    (keyValues : List Val) : AsyncState × PushOutcome :=
  if cfg.opts.BetweenMinMax lvl = false then (s, PushOutcome.gated)
  else
    let keyVals := cfg.opts.WithDefaultKeyValues lvl keyValues
    if s.closed = true then (s, PushOutcome.droppedClosed)
    else ({ s with queue := s.queue ++ [keyVals],
                   enqueued := s.enqueued ++ [keyVals] },
          PushOutcome.enqueued)

/-- `AsyncLogger.Critical`. -/
def Critical (cfg : AsyncConfig) (s : AsyncState) (keyValues : List Val) :
    AsyncState × PushOutcome :=
  pushLog cfg s LevelCritical keyValues

/-- `AsyncLogger.Error`. -/
def Error (cfg : AsyncConfig) (s : AsyncState) (keyValues : List Val) :
    AsyncState × PushOutcome :=
  pushLog cfg s LevelError keyValues

/-- `AsyncLogger.Warn`. -/
def Warn (cfg : AsyncConfig) (s : AsyncState) (keyValues : List Val) :
    AsyncState × PushOutcome :=
  pushLog cfg s LevelWarning keyValues

/-- `AsyncLogger.Info`. -/
def Info (cfg : AsyncConfig) (s : AsyncState) (keyValues : List Val) :
    AsyncState × PushOutcome :=
  pushLog cfg s LevelInfo keyValues

/-- `AsyncLogger.Debug`. -/
def Debug (cfg : AsyncConfig) (s : AsyncState) (keyValues : List Val) :
    AsyncState × PushOutcome :=
  pushLog cfg s LevelDebug keyValues

/-- `AsyncLogger.Log`. -/
def Log (cfg : AsyncConfig) (s : AsyncState) (keyValues : List Val) :
    AsyncState × PushOutcome :=
  pushLog cfg s LevelNone keyValues

/-- One atomic action of the async logger or of one of its goroutines. -/
inductive Step (cfg : AsyncConfig) : AsyncState → AsyncState → Prop where
  /-- A producer calls one of the logging methods (`pushLog`). -/
  | push (s : AsyncState) (lvl : Level) (kvs : List Val) :
      Step cfg s (pushLog cfg s lvl kvs).1
  /-- An idle worker receives the head of the channel
  (`for keyVals := range logger.entriesChan`). -/
  | dequeue (s : AsyncState) (r : Rec) (q : List Rec) :
      1 ≤ s.idle → s.queue = r :: q →
      Step cfg s { s with queue := q, idle := s.idle - 1,
                          busy := s.busy ++ [r] }
  /-- A busy worker finishes its `Formatter` call; on failure it invokes
  `opts.ErrHandler` with the error and the record (`logAsync`). -/
  | format (s : AsyncState) (l₁ l₂ : List Rec) (r : Rec) :
      s.busy = l₁ ++ r :: l₂ →
      Step cfg s { s with busy := l₁ ++ l₂, idle := s.idle + 1,
                          formatted := s.formatted ++ [r],
                          handled := s.handled ++
                            ((cfg.fmtRes r).map (fun e => (e, r))).toList }
  /-- An idle worker observes the channel closed and drained, and its
  `range` loop ends (`wg.Done`). -/
  | workerExit (s : AsyncState) :
      1 ≤ s.idle → s.closed = true → s.queue = [] →
      Step cfg s { s with idle := s.idle - 1 }
  /-- `Close`, first phase, under the mutex: set the `closed` flag and
  close `entriesChan`. -/
  | closeStart (s : AsyncState) :
      s.closed = false →
      Step cfg s { s with closed := true }
  /-- `Close`, final phase: `wg.Wait` has returned — every worker has
  exited — and the writer is a `BufferedWriter`, so `Close` calls its
  `Stop`. -/
  | stopWriter (s : AsyncState) :
      s.closed = true → s.idle = 0 → s.busy = [] →
      cfg.writerIsBuffered = true →
      Step cfg s { s with writerStopped := true }

/-- States reachable from a freshly constructed logger. -/
def Reachable (cfg : AsyncConfig) (s : AsyncState) : Prop :=
  Relation.ReflTransGen (Step cfg) (initState cfg) s

/-- All workers have exited (the point at which `Close`'s `wg.Wait`
returns). -/
def Terminal (s : AsyncState) : Prop :=
  s.closed = true ∧ s.idle = 0 ∧ s.busy = []

/-- `AsyncLogger.Close` run to completion, as the sequential big-step
function it is for the caller: under the mutex, if not yet closed, mark
closed, close the channel, wait for the workers to drain the channel
(so every pending record is formatted, with `ErrHandler` on failures)
and, if the writer is a `BufferedWriter`, stop it.  Always returns
`none` (the Go method always returns `nil`). -/
def CloseFn (cfg : AsyncConfig) (s : AsyncState) : AsyncState × Option String :=
  if s.closed = true then (s, none)
  else
    let pending := s.busy ++ s.queue
    ({ s with closed := true, queue := [], busy := [], idle := 0,
              formatted := s.formatted ++ pending,
              handled := s.handled ++
                pending.filterMap (fun r => (cfg.fmtRes r).map (fun e => (e, r))),
              writerStopped := s.writerStopped || cfg.writerIsBuffered },
     none)

/-- The inductive invariant of the async logger's transition system. -/
structure AsyncInv (cfg : AsyncConfig) (s : AsyncState) : Prop where
  /-- Every record sent to the channel is, exactly once, either already
  formatted, held by a worker, or still in the channel. -/
  perm : s.enqueued.Perm (s.formatted ++ (s.busy ++ s.queue))
  /-- With a single worker the decomposition holds as lists: records
  are formatted in exact enqueue order. -/
  fifo : cfg.workersNo = 1 →
    s.enqueued = s.formatted ++ (s.busy ++ s.queue)
  /-- The `ErrHandler` history is exactly the formatted records on
  which the formatter failed, with their errors. -/
  handled_eq : s.handled =
    s.formatted.filterMap (fun r => (cfg.fmtRes r).map (fun e => (e, r)))
  /-- Before `Close`, all configured workers are live. -/
  live_open : s.closed = false → s.idle + s.busy.length = cfg.workersNo
  /-- Never more live workers than configured. -/
  live_le : s.idle + s.busy.length ≤ cfg.workersNo
  /-- Once closed, if every worker has exited then the channel was
  drained (provided there was at least one worker). -/
  drained : 1 ≤ cfg.workersNo → s.closed = true →
    s.idle + s.busy.length = 0 → s.queue = []
  /-- `Stop` on the buffered writer only happens after `Close` and
  after every worker has exited. -/
  stopped : s.writerStopped = true →
    s.closed = true ∧ s.idle = 0 ∧ s.busy = [] ∧ cfg.writerIsBuffered = true

/-! ## The buffered writer (writer_buffered source file)

`BufferedWriter` wraps an `io.Writer` behind a `bufio.Writer` plus a
mutex, a `stopped` flag and an optional ticker goroutine.  Every
operation of the Go type runs entirely under the mutex `bw.mu`, so the
sequential functions below are the atomic transitions of the real
object.  The wrapped sink (`origWriter`) is modelled by `MockSink`, a
scripted writer in the style of the repository's test doubles: each
entry of `script` decides whether the next `Write` call on the sink
succeeds in full or fails writing nothing; an exhausted script means
success. -/

/-- The wrapped sink: a scripted `io.Writer` test double recording the
bytes it accepted. -/
structure MockSink where
  script : List Bool
  written : List Nat
deriving DecidableEq, Repr

/-- One `Write` call on the sink: succeeds in full, or fails with zero
bytes written and an error, as its script dictates. -/
def MockSink.write (w : MockSink) (p : List Nat) :
    MockSink × Nat × Option String :=
  match w.script with
  | [] => ({ w with written := w.written ++ p }, p.length, none)
  | ok :: rest =>
    if ok then
      ({ w with script := rest, written := w.written ++ p }, p.length, none)
    else
      ({ w with script := rest }, 0, some "mock sink write error")

/-- Model of Go's `bufio.Writer` (go1.17 bufio.go, as linked by the
source): an internal byte buffer `buf` of capacity `size` and a sticky
error `err`. -/
structure BufioWriter where
  size : Nat
  buf : List Nat
  err : Option String
deriving DecidableEq, Repr

/-- `bufio.NewWriterSize`: a non-positive size falls back to the
default 4096. -/
def NewWriterSize (size : Nat) : BufioWriter :=
  { size := if size = 0 then 4096 else size, buf := [], err := none }

/-- `bufio.Writer.Flush`: propagate a sticky error; otherwise push the
buffered bytes to the sink in one `Write` call, turning a silent short
write into `io.ErrShortWrite`, keeping the unwritten tail and recording
the error on failure, emptying the buffer on success. -/
def BufioWriter.Flush (b : BufioWriter) (w : MockSink) :
    BufioWriter × MockSink × Option String :=
  match b.err with
  | some e => (b, w, some e)
  | none =>
    if b.buf.length = 0 then (b, w, none)
    else
      let r := w.write b.buf
      let e := match r.2.2 with
        | none => if r.2.1 < b.buf.length then some "short write" else none
        | some e => some e
      match e with
      | some e => ({ b with buf := b.buf.drop r.2.1, err := some e }, r.1, some e)
      | none => ({ b with buf := [] }, r.1, none)

/-- The loop of `bufio.Writer.Write`: while `p` does not fit in the
free space and no error occurred, either write `p` straight to the sink
(empty buffer) or top the buffer up and flush it; once the loop exits,
report a pending error or copy the remainder into the buffer.  The
loop's progress measure is bounded by `p.length + 3` non-terminal
iterations (each iteration consumes input bytes, or empties the buffer,
or records an error that ends the loop), so `BufioWriter.write` passes
fuel that cannot run out; an exhausted-fuel step behaves like the loop
exit. -/
def BufioWriter.writeLoop : Nat → BufioWriter → MockSink → List Nat → Nat →
    BufioWriter × MockSink × Nat × Option String
  | 0, b, w, p, nn =>
    match b.err with
    | some e => (b, w, nn, some e)
    | none =>
      let n := min (b.size - b.buf.length) p.length
      ({ b with buf := b.buf ++ p.take n }, w, nn + n, none)
  | fuel + 1, b, w, p, nn =>
    if b.size - b.buf.length < p.length ∧ b.err = none then
      if b.buf.length = 0 then
        let r := w.write p
        BufioWriter.writeLoop fuel { b with err := r.2.2 } r.1
          (p.drop r.2.1) (nn + r.2.1)
      else
        let n := min (b.size - b.buf.length) p.length
        let fr := BufioWriter.Flush { b with buf := b.buf ++ p.take n } w
        BufioWriter.writeLoop fuel fr.1 fr.2.1 (p.drop n) (nn + n)
    else
      match b.err with
      | some e => (b, w, nn, some e)
      | none =>
        let n := min (b.size - b.buf.length) p.length
        ({ b with buf := b.buf ++ p.take n }, w, nn + n, none)

/-- `bufio.Writer.Write`. -/
def BufioWriter.write (b : BufioWriter) (w : MockSink) (p : List Nat) :
    BufioWriter × MockSink × Nat × Option String :=
  BufioWriter.writeLoop (p.length + b.buf.length + 3) b w p 0

/-- `bufio.Writer.Reset`: discard any unflushed bytes and clear the
error. -/
def BufioWriter.Reset (b : BufioWriter) : BufioWriter :=
  { b with buf := [], err := none }

/-- The `BufferedWriter` decorator. `timerRunning` records whether the
ticker goroutine started by the constructor is still running. -/
structure BufferedWriter where
  bufSize : Nat
  flushInterval : Nat
  bufWriter : BufioWriter
  stopped : Bool
  timerRunning : Bool
deriving DecidableEq, Repr

/-- `NewBufferedWriter` with the size and flush interval resulting from
the applied options (defaults 4096 and 10s; interval `0` models the
`<= 0` "timer disabled" configuration): fresh `bufio` writer, ticker
goroutine started only for a positive interval. -/
def NewBufferedWriter (bufSize : Nat) (flushInterval : Nat) : BufferedWriter :=
  { bufSize := bufSize
    flushInterval := flushInterval
    bufWriter := NewWriterSize bufSize
    stopped := false
    timerRunning := decide (0 < flushInterval) }

/-- `BufferedWriter.Write`: under the mutex, if not stopped delegate to
the `bufio` writer and reset it on error (so the error is returned to
this caller but never sticks); if stopped, report zero bytes and no
error. -/
def BufferedWriter.Write (bw : BufferedWriter) (w : MockSink) (p : List Nat) :
    BufferedWriter × MockSink × Nat × Option String :=
  if bw.stopped = false then
    let r := bw.bufWriter.write w p
    match r.2.2.2 with
    | some e => ({ bw with bufWriter := r.1.Reset }, r.2.1, r.2.2.1, some e)
    | none => ({ bw with bufWriter := r.1 }, r.2.1, r.2.2.1, none)
  else (bw, w, 0, none)

/-- `BufferedWriter.flush`: under the mutex, flush the `bufio` writer,
resetting it if the flush failed. -/
def BufferedWriter.flush (bw : BufferedWriter) (w : MockSink) :
    BufferedWriter × MockSink :=
  let r := bw.bufWriter.Flush w
  match r.2.2 with
  | some _ => ({ bw with bufWriter := r.1.Reset }, r.2.1)
  | none => ({ bw with bufWriter := r.1 }, r.2.1)

/-- The three actions of the first `BufferedWriter.Stop` call, in the
order the source performs them. -/
inductive StopEv where
  | SetStopped
  | JoinTimer
  | FinalFlush
deriving DecidableEq, Repr

/-- `BufferedWriter.Stop`: on the first call, set the stopped flag,
signal the ticker goroutine through `stopFlushCh` and join it
(`wg.Wait`), then flush the remaining bytes; later calls do nothing.
The returned event list records which actions ran, in order. -/
def BufferedWriter.Stop (bw : BufferedWriter) (w : MockSink) :
    BufferedWriter × MockSink × List StopEv :=
  if bw.stopped = false then
    let bw1 : BufferedWriter := { bw with stopped := true, timerRunning := false }
    let r := bw1.flush w
    (r.1, r.2, [StopEv.SetStopped, StopEv.JoinTimer, StopEv.FinalFlush])
  else (bw, w, [])

/-- Run a sequence of `Write` calls (used to state the
accumulate-until-stop property). -/
def writeAll (bw : BufferedWriter) (w : MockSink) :
    List (List Nat) → BufferedWriter × MockSink
  | [] => (bw, w)
  | p :: ps =>
    let r := bw.Write w p
    writeAll r.1 r.2.1 ps

/-- A sink whose every `Write` succeeds, with no bytes received yet. -/
def startSink : MockSink := { script := [], written := [] }

/-! ## Concrete instances used in witnesses and counterexamples -/

/-- Default common options with fixed provider values. -/
def optsW : CommonOpts := NewCommonOpts (Val.str "2024-01-01T00:00:00Z") "app/main.go:10"

/-- One worker over a `BufferedWriter`, formatter always succeeds
(the `NewAsyncLogger` defaults). -/
def cfgW : AsyncConfig :=
  { opts := optsW, fmtRes := fun _ => none, workersNo := 1, writerIsBuffered := true }

/-- Like `cfgW` but the formatter fails on every record. -/
def cfgWerr : AsyncConfig := { cfgW with fmtRes := fun _ => some "formatter failure" }

/-- Like `cfgW` but constructed with `AsyncLoggerWithWorkersNo(0)`. -/
def cfgZero : AsyncConfig := { cfgW with workersNo := 0 }

/-- A concrete key-value slice. -/
def wKvs : List Val := [Val.str "msg", Val.str "hi"]

/-- The enrichment of `wKvs` at error level under `optsW`. -/
def wRec : Rec := cfgW.opts.WithDefaultKeyValues LevelError wKvs

/-- `cfgW` run: after `Error` was called once. -/
def w1 : AsyncState := (pushLog cfgW (initState cfgW) LevelError wKvs).1

/-- `cfgW` run: the worker received the record. -/
def w2 : AsyncState :=
  { w1 with queue := [], idle := w1.idle - 1, busy := w1.busy ++ [wRec] }

/-- `cfgW` run: the worker's `Formatter` call returned. -/
def w3 : AsyncState :=
  { w2 with busy := [] ++ [], idle := w2.idle + 1,
            formatted := w2.formatted ++ [wRec],
            handled := w2.handled ++
              ((cfgW.fmtRes wRec).map (fun e => (e, wRec))).toList }

/-- `cfgW` run: `Close` set the flag and closed the channel. -/
def w4 : AsyncState := { w3 with closed := true }

/-- `cfgW` run: the worker exited its `range` loop. -/
def w5 : AsyncState := { w4 with idle := w4.idle - 1 }

/-- `cfgW` run: `Close` stopped the buffered writer and returned. -/
def w6 : AsyncState := { w5 with writerStopped := true }

/-- `cfgWerr` run: after `Error` was called once. -/
def e1 : AsyncState := (pushLog cfgWerr (initState cfgWerr) LevelError wKvs).1

/-- `cfgWerr` run: the worker received the record. -/
def e2 : AsyncState :=
  { e1 with queue := [], idle := e1.idle - 1, busy := e1.busy ++ [wRec] }

/-- `cfgWerr` run: the `Formatter` call failed and `ErrHandler` ran. -/
def e3 : AsyncState :=
  { e2 with busy := [] ++ [], idle := e2.idle + 1,
            formatted := e2.formatted ++ [wRec],
            handled := e2.handled ++
              ((cfgWerr.fmtRes wRec).map (fun e => (e, wRec))).toList }

/-- `cfgZero` run: after `Error` was called once. -/
def z1 : AsyncState := (pushLog cfgZero (initState cfgZero) LevelError wKvs).1

/-- `cfgZero` run: `Close` set the flag and closed the channel. -/
def z2 : AsyncState := { z1 with closed := true }

/-- `cfgZero` run: `Close`'s `wg.Wait` returned at once (no workers) and
the buffered writer was stopped, the record still in the channel. -/
def z3 : AsyncState := { z2 with writerStopped := true }

/-- A state whose `Close` has completed (used against `pushLog`). -/
def c4S : AsyncState := { initState cfgW with closed := true }

/-- A size-2 buffered writer with the timer disabled. -/
def bwW : BufferedWriter := NewBufferedWriter 2 0

/-- A sink whose first `Write` fails. -/
def wFail : MockSink := { script := [false], written := [] }

/-- A buffered writer on which `Stop` has already taken effect. -/
def bwStopped : BufferedWriter := { NewBufferedWriter 4 0 with stopped := true }

end Xlog

/-! # Theorems -/

namespace Xlog

/-! ## Helper lemmas about `pushLog` -/

/-- `pushLog` either leaves the state unchanged (gated or closed) or, on
an open logger, appends the enriched record to the channel. -/
theorem pushLog_fst_cases (cfg : AsyncConfig) (s : AsyncState) (lvl : Level)
    (kvs : List Val) :
    (pushLog cfg s lvl kvs).1 = s ∨
    (s.closed = false ∧ (pushLog cfg s lvl kvs).1 =
      { s with queue := s.queue ++ [cfg.opts.WithDefaultKeyValues lvl kvs],
               enqueued := s.enqueued ++ [cfg.opts.WithDefaultKeyValues lvl kvs] }) := by
  unfold pushLog
  by_cases hg : cfg.opts.BetweenMinMax lvl = false
  · simp [hg]
  · by_cases hc : s.closed = true
    · simp [hg, hc]
    · right
      refine ⟨by simpa using hc, ?_⟩
      simp [hg, hc]

/-- A level outside the gate interval leaves the state untouched and the
record is never enriched nor enqueued. -/
theorem pushLog_gated (cfg : AsyncConfig) (s : AsyncState) (lvl : Level)
    (kvs : List Val) (hg : cfg.opts.BetweenMinMax lvl = false) :
    pushLog cfg s lvl kvs = (s, PushOutcome.gated) := by
  unfold pushLog
  simp [hg]

/-! ## The inductive invariant -/

/-- The invariant holds right after construction. -/
theorem inv_init (cfg : AsyncConfig) : AsyncInv cfg (initState cfg) := by
  refine ⟨?_, ?_, ?_, ?_, ?_, ?_, ?_⟩ <;> simp [initState, Terminal]

/-- Every transition preserves the invariant. -/
theorem inv_step (cfg : AsyncConfig) {s t : AsyncState}
    (inv : AsyncInv cfg s) (h : Step cfg s t) : AsyncInv cfg t := by
  cases h with
  | push lvl kvs =>
    rcases pushLog_fst_cases cfg s lvl kvs with heq | ⟨hcl, heq⟩
    · rw [heq]; exact inv
    · rw [heq]
      refine ⟨?_, ?_, ?_, ?_, ?_, ?_, ?_⟩ <;> dsimp only
      · simpa [List.append_assoc] using
          inv.perm.append_right [cfg.opts.WithDefaultKeyValues lvl kvs]
      · intro h1; rw [inv.fifo h1]; simp [List.append_assoc]
      · exact inv.handled_eq
      · exact inv.live_open
      · exact inv.live_le
      · intro _ hc _; rw [hcl] at hc; cases hc
      · intro hws; exact absurd (inv.stopped hws).1 (by simp [hcl])
  | dequeue r q h1 h2 =>
    refine ⟨?_, ?_, ?_, ?_, ?_, ?_, ?_⟩ <;> dsimp only
    · have hp := inv.perm; rw [h2] at hp
      simpa [List.append_assoc] using hp
    · intro h1w; have hf := inv.fifo h1w; rw [h2] at hf
      simpa [List.append_assoc] using hf
    · exact inv.handled_eq
    · intro hc; have := inv.live_open hc; simp [List.length_append]; omega
    · have := inv.live_le; simp [List.length_append]; omega
    · intro _ _ h0; simp [List.length_append] at h0
    · intro hws; exact absurd (inv.stopped hws).2.1 (by omega)
  | format l₁ l₂ r hbusy =>
    refine ⟨?_, ?_, ?_, ?_, ?_, ?_, ?_⟩ <;> dsimp only
    · have hp := inv.perm; rw [hbusy] at hp
      have key : ((l₁ ++ r :: l₂) ++ s.queue).Perm
          ([r] ++ ((l₁ ++ l₂) ++ s.queue)) := by
        simp [List.append_assoc]
      have := hp.trans (key.append_left s.formatted)
      simpa [List.append_assoc] using this
    · intro h1w
      have hle := inv.live_le
      rw [h1w, hbusy] at hle
      simp [List.length_append] at hle
      have hl₁ : l₁ = [] := List.eq_nil_of_length_eq_zero (by omega)
      have hl₂ : l₂ = [] := List.eq_nil_of_length_eq_zero (by omega)
      subst hl₁; subst hl₂
      have hf := inv.fifo h1w; rw [hbusy] at hf
      simpa [List.append_assoc] using hf
    · rw [inv.handled_eq, List.filterMap_append]
      cases hr : cfg.fmtRes r <;> simp [hr]
    · intro hc; have := inv.live_open hc; rw [hbusy] at this
      simp [List.length_append] at this ⊢; omega
    · have := inv.live_le; rw [hbusy] at this
      simp [List.length_append] at this ⊢; omega
    · intro _ _ h0; simp [List.length_append] at h0
    · intro hws; have := (inv.stopped hws).2.2.1; rw [hbusy] at this
      exact absurd this (by simp)
  | workerExit h1 h2 h3 =>
    refine ⟨?_, ?_, ?_, ?_, ?_, ?_, ?_⟩ <;> dsimp only
    · exact inv.perm
    · exact inv.fifo
    · exact inv.handled_eq
    · intro hc; rw [h2] at hc; cases hc
    · have := inv.live_le; omega
    · intro _ _ _; exact h3
    · intro hws; exact absurd (inv.stopped hws).2.1 (by omega)
  | closeStart h1 =>
    refine ⟨?_, ?_, ?_, ?_, ?_, ?_, ?_⟩ <;> dsimp only
    · exact inv.perm
    · exact inv.fifo
    · exact inv.handled_eq
    · intro hc; cases hc
    · exact inv.live_le
    · intro hw _ h0
      have := inv.live_open h1
      omega
    · intro hws; exact absurd (inv.stopped hws).1 (by simp [h1])
  | stopWriter h1 h2 h3 h4 =>
    refine ⟨?_, ?_, ?_, ?_, ?_, ?_, ?_⟩ <;> dsimp only
    · exact inv.perm
    · exact inv.fifo
    · exact inv.handled_eq
    · exact inv.live_open
    · exact inv.live_le
    · exact inv.drained
    · intro _; exact ⟨h1, h2, h3, h4⟩

/-- Every reachable state satisfies the invariant. -/
theorem reachable_inv (cfg : AsyncConfig) {s : AsyncState}
    (h : Reachable cfg s) : AsyncInv cfg s := by
  unfold Reachable at h
  induction h with
  | refl => exact inv_init cfg
  | tail _ hstep ih => exact inv_step cfg ih hstep

/-! ## After all workers have exited -/

/-- Once closed with all workers exited, the ghost histories and the
channel are frozen: no step changes them. -/
theorem terminal_step (cfg : AsyncConfig) {s t : AsyncState}
    (hT : Terminal s) (h : Step cfg s t) :
    Terminal t ∧ t.queue = s.queue ∧ t.enqueued = s.enqueued ∧
    t.formatted = s.formatted ∧ t.handled = s.handled := by
  obtain ⟨hc, hi, hb⟩ := hT
  cases h with
  | push lvl kvs =>
    have heq : (pushLog cfg s lvl kvs).1 = s := by
      rcases pushLog_fst_cases cfg s lvl kvs with heq | ⟨hcl, _⟩
      · exact heq
      · rw [hc] at hcl; cases hcl
    rw [heq]
    exact ⟨⟨hc, hi, hb⟩, rfl, rfl, rfl, rfl⟩
  | dequeue r q h1 h2 => exact absurd h1 (by omega)
  | format l₁ l₂ r hbusy =>
    rw [hb] at hbusy; exact absurd hbusy (by simp)
  | workerExit h1 _ _ => exact absurd h1 (by omega)
  | closeStart h1 => rw [hc] at h1; cases h1
  | stopWriter _ _ _ _ =>
    exact ⟨⟨hc, hi, hb⟩, rfl, rfl, rfl, rfl⟩

/-- `terminal_step` extended along any run. -/
theorem terminal_steps (cfg : AsyncConfig) {s t : AsyncState}
    (hT : Terminal s) (h : Relation.ReflTransGen (Step cfg) s t) :
    Terminal t ∧ t.queue = s.queue ∧ t.enqueued = s.enqueued ∧
    t.formatted = s.formatted ∧ t.handled = s.handled := by
  induction h with
  | refl => exact ⟨hT, rfl, rfl, rfl, rfl⟩
  | tail _ hbc ih =>
    obtain ⟨hTb, e1, e2, e3, e4⟩ := ih
    obtain ⟨hTc, f1, f2, f3, f4⟩ := terminal_step cfg hTb hbc
    exact ⟨hTc, f1.trans e1, f2.trans e2, f3.trans e3, f4.trans e4⟩

end Xlog

namespace Xlog

/-! ## Concrete reachable runs -/

/-- The `cfgW` pipeline run up to the formatted record is reachable. -/
theorem reach_w3 : Reachable cfgW w3 := by
  have s1 : Step cfgW (initState cfgW) w1 :=
    Step.push (initState cfgW) LevelError wKvs
  have s2 : Step cfgW w1 w2 :=
    Step.dequeue w1 wRec [] (by decide) (by decide)
  have s3 : Step cfgW w2 w3 :=
    Step.format w2 [] [] wRec (by decide)
  exact Relation.ReflTransGen.head s1
    (Relation.ReflTransGen.head s2 (Relation.ReflTransGen.single s3))

/-- The `cfgW` pipeline run up to a completed `Close` is reachable. -/
theorem reach_w6 : Reachable cfgW w6 := by
  have s4 : Step cfgW w3 w4 := Step.closeStart w3 (by decide)
  have s5 : Step cfgW w4 w5 :=
    Step.workerExit w4 (by decide) (by decide) (by decide)
  have s6 : Step cfgW w5 w6 :=
    Step.stopWriter w5 (by decide) (by decide) (by decide) (by decide)
  exact reach_w3.trans
    (Relation.ReflTransGen.head s4
      (Relation.ReflTransGen.head s5 (Relation.ReflTransGen.single s6)))

/-- The `cfgWerr` run up to the failed `Formatter` call is reachable. -/
theorem reach_e3 : Reachable cfgWerr e3 := by
  have s1 : Step cfgWerr (initState cfgWerr) e1 :=
    Step.push (initState cfgWerr) LevelError wKvs
  have s2 : Step cfgWerr e1 e2 :=
    Step.dequeue e1 wRec [] (by decide) (by decide)
  have s3 : Step cfgWerr e2 e3 :=
    Step.format e2 [] [] wRec (by decide)
  exact Relation.ReflTransGen.head s1
    (Relation.ReflTransGen.head s2 (Relation.ReflTransGen.single s3))

end Xlog

namespace Xlog

/-! ## Claims about the async logger -/

/-- Claim C1 (amended: at least one worker configured).  When `Close`
has completed (`writerStopped` marks its final action), the logger is
closed, every worker has exited, the channel was drained, `Stop` was
only invoked because the writer is a `BufferedWriter`, every record
that was enqueued was passed to the Formatter exactly once, and no
later step formats or enqueues anything further. -/
theorem asyncLogger_close_drains (cfg : AsyncConfig) (s t : AsyncState)
    (hw : 1 ≤ cfg.workersNo) (hs : Reachable cfg s)
    (hstop : s.writerStopped = true)
    (ht : Relation.ReflTransGen (Step cfg) s t) :
    s.closed = true ∧ s.idle = 0 ∧ s.busy = [] ∧ s.queue = [] ∧
    cfg.writerIsBuffered = true ∧ s.enqueued.Perm s.formatted ∧
    t.formatted = s.formatted ∧ t.enqueued = s.enqueued ∧
    t.queue = s.queue := by
  have inv := reachable_inv cfg hs
  obtain ⟨hc, hi, hb, hbuf⟩ := inv.stopped hstop
  have hq : s.queue = [] := inv.drained hw hc (by simp [hi, hb])
  have hperm : s.enqueued.Perm s.formatted := by
    have hp := inv.perm
    rw [hb, hq] at hp
    simpa using hp
  obtain ⟨-, e1, e2, e3, -⟩ := terminal_steps cfg ⟨hc, hi, hb⟩ ht
  exact ⟨hc, hi, hb, hq, hbuf, hperm, e3, e2, e1⟩

/-- Witness for C1: a one-worker pipeline that logs one record, formats
it, closes and stops its buffered writer. -/
theorem asyncLogger_close_drains_witness :
    1 ≤ cfgW.workersNo ∧ w6.writerStopped = true ∧
    w6.queue = [] ∧ w6.enqueued.Perm w6.formatted := by
  have h := asyncLogger_close_drains cfgW w6 w6 (by decide) reach_w6 rfl
    Relation.ReflTransGen.refl
  exact ⟨by decide, rfl, h.2.2.2.1, h.2.2.2.2.2.1⟩

/-- Counterexample to C1 as stated: with `AsyncLoggerWithWorkersNo(0)`
the close protocol completes (there is no worker to wait for) while the
enqueued record was never passed to the Formatter. -/
theorem asyncLogger_close_drains_cex :
    Reachable cfgZero z3 ∧ z3.writerStopped = true ∧
    z3.queue ≠ [] ∧ ¬ z3.enqueued.Perm z3.formatted := by
  refine ⟨?_, rfl, by decide, ?_⟩
  · have s1 : Step cfgZero (initState cfgZero) z1 :=
      Step.push (initState cfgZero) LevelError wKvs
    have s2 : Step cfgZero z1 z2 := Step.closeStart z1 (by decide)
    have s3 : Step cfgZero z2 z3 :=
      Step.stopWriter z2 (by decide) (by decide) (by decide) (by decide)
    exact Relation.ReflTransGen.head s1
      (Relation.ReflTransGen.head s2 (Relation.ReflTransGen.single s3))
  · intro hp
    exact absurd hp.length_eq (by decide)

/-- Claim C2: with exactly one worker, the records passed to the
Formatter are an initial segment of the enqueue history in exactly
enqueue order — the enqueue history is the formatted records followed
by the in-flight and still-queued ones. -/
theorem asyncLogger_fifo (cfg : AsyncConfig) (s : AsyncState)
    (hw : cfg.workersNo = 1) (hs : Reachable cfg s) :
    s.enqueued = s.formatted ++ (s.busy ++ s.queue) :=
  (reachable_inv cfg hs).fifo hw

/-- Witness for C2 at a concrete one-worker run. -/
theorem asyncLogger_fifo_witness :
    cfgW.workersNo = 1 ∧
    w3.enqueued = w3.formatted ++ (w3.busy ++ w3.queue) :=
  ⟨rfl, asyncLogger_fifo cfgW w3 rfl reach_w3⟩

/-- Claim C3: `Close` always returns `nil`, leaves the logger closed,
and a second call changes nothing and also returns `nil`. -/
theorem asyncLogger_close_idempotent (cfg : AsyncConfig) (s : AsyncState) :
    (CloseFn cfg s).2 = none ∧ (CloseFn cfg s).1.closed = true ∧
    CloseFn cfg (CloseFn cfg s).1 = ((CloseFn cfg s).1, none) := by
  unfold CloseFn
  by_cases hc : s.closed = true <;> simp [hc]

/-- Claim C4: once `Close` has completed, every logging call leaves the
state untouched — nothing is enqueued — and the call yields no error
(the methods return nothing); this covers
`Critical`/`Error`/`Warn`/`Info`/`Debug`/`Log`. -/
theorem asyncLogger_push_after_close (cfg : AsyncConfig) (s : AsyncState)
    (h : s.closed = true) :
    (∀ lvl kvs, (pushLog cfg s lvl kvs).1 = s ∧
      (pushLog cfg s lvl kvs).2 ≠ PushOutcome.enqueued) ∧
    (∀ kvs, (Critical cfg s kvs).1 = s ∧ (Error cfg s kvs).1 = s ∧
      (Warn cfg s kvs).1 = s ∧ (Info cfg s kvs).1 = s ∧
      (Debug cfg s kvs).1 = s ∧ (Log cfg s kvs).1 = s) := by
  have key : ∀ lvl kvs, (pushLog cfg s lvl kvs).1 = s ∧
      (pushLog cfg s lvl kvs).2 ≠ PushOutcome.enqueued := by
    intro lvl kvs
    unfold pushLog
    by_cases hg : cfg.opts.BetweenMinMax lvl = false <;> simp [hg, h]
  refine ⟨key, fun kvs => ?_⟩
  exact ⟨(key _ kvs).1, (key _ kvs).1, (key _ kvs).1, (key _ kvs).1,
    (key _ kvs).1, (key _ kvs).1⟩

/-- Witness for C4 on a concrete closed state. -/
theorem asyncLogger_push_after_close_witness :
    c4S.closed = true ∧ (pushLog cfgW c4S LevelError wKvs).1 = c4S ∧
    (pushLog cfgW c4S LevelError wKvs).2 ≠ PushOutcome.enqueued := by
  have h := (asyncLogger_push_after_close cfgW c4S rfl).1 LevelError wKvs
  exact ⟨rfl, h.1, h.2⟩

/-- Claim C9: in every reachable state the `ErrHandler` history is
exactly the formatted records on which the Formatter failed, paired
with their errors, and every enqueued record is dispatched to the
Formatter at most once (the enqueue history is a permutation of the
formatted, in-flight and queued records — no retry, no duplication);
logging calls return nothing, so no failure reaches a producer. -/
theorem asyncLogger_formatter_errors_handled (cfg : AsyncConfig)
    (s : AsyncState) (hs : Reachable cfg s) :
    s.handled =
      s.formatted.filterMap (fun r => (cfg.fmtRes r).map (fun e => (e, r))) ∧
    s.enqueued.Perm (s.formatted ++ (s.busy ++ s.queue)) :=
  ⟨(reachable_inv cfg hs).handled_eq, (reachable_inv cfg hs).perm⟩

/-- Witness for C9: one record whose `Formatter` call fails; the
handler receives exactly that error with that record. -/
theorem asyncLogger_formatter_errors_handled_witness :
    e3.handled =
      e3.formatted.filterMap (fun r => (cfgWerr.fmtRes r).map (fun e => (e, r))) ∧
    e3.handled = [("formatter failure", wRec)] :=
  ⟨(asyncLogger_formatter_errors_handled cfgWerr e3 reach_e3).1, by decide⟩

/-- Claim C10: the level gate runs inside `pushLog` before enrichment
and enqueue: a level outside `[MinLevel, MaxLevel]` returns the state
unchanged with outcome `gated`; `NewCommonOpts` defaults are
`[Warning, Critical]`, and under those defaults `Debug`, `Info` and
`Log` are all discarded. -/
theorem asyncLogger_level_gate (cfg : AsyncConfig) (s : AsyncState) :
    (∀ lvl kvs, cfg.opts.BetweenMinMax lvl = false →
      pushLog cfg s lvl kvs = (s, PushOutcome.gated)) ∧
    (∀ timeVal sourceVal,
      (NewCommonOpts timeVal sourceVal).minLevel = LevelWarning ∧
      (NewCommonOpts timeVal sourceVal).maxLevel = LevelCritical) ∧
    (cfg.opts.minLevel = LevelWarning →
      ∀ kvs, Debug cfg s kvs = (s, PushOutcome.gated) ∧
        Info cfg s kvs = (s, PushOutcome.gated) ∧
        Log cfg s kvs = (s, PushOutcome.gated)) := by
  refine ⟨fun lvl kvs hg => pushLog_gated cfg s lvl kvs hg, ?_, ?_⟩
  · intro t sv; exact ⟨rfl, rfl⟩
  · intro hmin kvs
    have hg : ∀ lvl, lvl < LevelWarning →
        cfg.opts.BetweenMinMax lvl = false := by
      intro lvl hlt
      unfold CommonOpts.BetweenMinMax
      rw [hmin]
      simp only [Bool.and_eq_false_iff, decide_eq_false_iff_not]
      exact Or.inl (Nat.not_le.mpr hlt)
    exact ⟨pushLog_gated cfg s LevelDebug kvs (hg _ (by decide)),
      pushLog_gated cfg s LevelInfo kvs (hg _ (by decide)),
      pushLog_gated cfg s LevelNone kvs (hg _ (by decide))⟩

/-- Witness for C10 under the default options. -/
theorem asyncLogger_level_gate_witness :
    cfgW.opts.minLevel = LevelWarning ∧
    Debug cfgW (initState cfgW) wKvs = (initState cfgW, PushOutcome.gated) ∧
    Info cfgW (initState cfgW) wKvs = (initState cfgW, PushOutcome.gated) ∧
    Log cfgW (initState cfgW) wKvs = (initState cfgW, PushOutcome.gated) := by
  have h := (asyncLogger_level_gate cfgW (initState cfgW)).2.2 rfl wKvs
  exact ⟨rfl, h.1, h.2.1, h.2.2⟩

end Xlog

namespace Xlog

/-! ## Helper lemmas about the buffered writer -/

/-- A `Flush` either reports an error, or leaves the `bufio` writer
empty and error-free. -/
theorem BufioWriter.Flush_spec (b : BufioWriter) (w : MockSink) :
    (b.Flush w).2.2 ≠ none ∨
    ((b.Flush w).1.buf = [] ∧ (b.Flush w).1.err = none) := by
  unfold BufioWriter.Flush
  split
  · left; simp
  next herr =>
    split
    next hlen => right; exact ⟨List.length_eq_zero.mp hlen, herr⟩
    next hlen =>
      rcases hr : w.write b.buf with ⟨w', n, e0⟩
      cases e0 with
      | some e1 => left; simp [hr]
      | none =>
        by_cases hn : n < b.buf.length
        · left; simp [hr, hn]
        · right; simp [hr, hn, herr]

/-- Unfolding `writeLoop` when the loop guard fails (also on exhausted
fuel) and no error is pending: the remainder is copied into the
buffer. -/
theorem BufioWriter.writeLoop_exit (fuel : Nat) (b : BufioWriter)
    (w : MockSink) (p : List Nat) (nn : Nat)
    (hnc : ¬(b.size - b.buf.length < p.length ∧ b.err = none))
    (herr : b.err = none) :
    BufioWriter.writeLoop fuel b w p nn =
      ({ b with buf := b.buf ++ p.take (min (b.size - b.buf.length) p.length) },
       w, nn + min (b.size - b.buf.length) p.length, none) := by
  cases fuel with
  | zero => simp only [BufioWriter.writeLoop, herr]
  | succ f =>
    simp only [BufioWriter.writeLoop]
    rw [if_neg hnc, herr]

/-- Unfolding `writeLoop` on the direct-write iteration: the input does
not fit, no error is pending and the buffer is empty, so the bytes go
straight to the sink. -/
theorem BufioWriter.writeLoop_direct (fuel : Nat) (b : BufioWriter)
    (w : MockSink) (p : List Nat) (nn : Nat)
    (hcond : b.size - b.buf.length < p.length) (herr : b.err = none)
    (hempty : b.buf.length = 0) :
    BufioWriter.writeLoop (fuel + 1) b w p nn =
      BufioWriter.writeLoop fuel { b with err := (w.write p).2.2 }
        (w.write p).1 (p.drop (w.write p).2.1) (nn + (w.write p).2.1) := by
  simp only [BufioWriter.writeLoop]
  rw [if_pos ⟨hcond, herr⟩, if_pos hempty]

/-- A `Write` that fits in the free buffer space copies the bytes into
the buffer without touching the sink and reports full success. -/
theorem BufioWriter.write_fits (b : BufioWriter) (w : MockSink)
    (p : List Nat) (herr : b.err = none)
    (hfit : b.buf.length + p.length ≤ b.size) :
    b.write w p = ({ b with buf := b.buf ++ p }, w, p.length, none) := by
  have hnc : ¬(b.size - b.buf.length < p.length ∧ b.err = none) := by
    rintro ⟨h1, -⟩; omega
  have hmin : min (b.size - b.buf.length) p.length = p.length :=
    min_eq_right (by omega)
  unfold BufioWriter.write
  rw [BufioWriter.writeLoop_exit _ _ _ _ _ hnc herr]
  simp [hmin, List.take_length]

/-- Writing to a clean `bufio` writer over an all-succeeding sink
always reports the full byte count and no error (the oversize case goes
straight through the sink). -/
theorem BufioWriter.write_clean_ok (size : Nat) (w : MockSink)
    (p : List Nat) (hw : w.script = []) :
    (BufioWriter.write ⟨size, [], none⟩ w p).2.2.1 = p.length ∧
    (BufioWriter.write ⟨size, [], none⟩ w p).2.2.2 = none := by
  by_cases hle : p.length ≤ size
  · rw [BufioWriter.write_fits _ _ _ rfl (by simpa using hle)]
    exact ⟨rfl, rfl⟩
  · have hlt : size < p.length := by omega
    unfold BufioWriter.write
    rw [show p.length + (⟨size, [], none⟩ : BufioWriter).buf.length + 3 =
      (p.length + 2) + 1 from rfl]
    rw [BufioWriter.writeLoop_direct (p.length + 2) ⟨size, [], none⟩ w p 0
      (by simpa using hlt) rfl rfl]
    simp only [MockSink.write, hw]
    rw [BufioWriter.writeLoop_exit _ _ _ _ _ (by simp) rfl]
    simp

end Xlog

namespace Xlog

/-- `BufferedWriter.flush` always leaves the accumulator clean — either
the flush succeeded and emptied it, or it failed and the reset emptied
it and cleared the error — and it never touches the flags. -/
theorem BufferedWriter.flush_fields (bw : BufferedWriter) (w : MockSink) :
    (bw.flush w).1.bufWriter.buf = [] ∧
    (bw.flush w).1.bufWriter.err = none ∧
    (bw.flush w).1.stopped = bw.stopped ∧
    (bw.flush w).1.timerRunning = bw.timerRunning ∧
    (bw.flush w).1.bufSize = bw.bufSize ∧
    (bw.flush w).1.flushInterval = bw.flushInterval := by
  unfold BufferedWriter.flush
  rcases hF : bw.bufWriter.Flush w with ⟨b1, w1, e0⟩
  cases e0 with
  | some e1 => simp [BufioWriter.Reset]
  | none =>
    rcases BufioWriter.Flush_spec bw.bufWriter w with hne | ⟨hbuf, herr⟩
    · rw [hF] at hne; exact absurd rfl hne
    · rw [hF] at hbuf herr
      exact ⟨hbuf, herr, rfl, rfl, rfl, rfl⟩

/-- `BufferedWriter.flush` over an all-succeeding sink with no pending
error pushes exactly the accumulated bytes to the sink. -/
theorem BufferedWriter.flush_ok (bw : BufferedWriter) (w : MockSink)
    (herr : bw.bufWriter.err = none) (hs : w.script = []) :
    (bw.flush w).2.written = w.written ++ bw.bufWriter.buf := by
  unfold BufferedWriter.flush BufioWriter.Flush
  rw [herr]
  by_cases hlen : bw.bufWriter.buf.length = 0
  · rw [if_pos hlen]
    simp [List.length_eq_zero.mp hlen]
  · rw [if_neg hlen]
    simp [MockSink.write, hs]

end Xlog

namespace Xlog

/-- A sequence of writes whose total fits in the buffer only
accumulates: the sink is never touched and the accumulator holds the
concatenation. -/
theorem writeAll_fits (ps : List (List Nat)) :
    ∀ (bw : BufferedWriter) (w : MockSink),
    bw.stopped = false → bw.bufWriter.err = none →
    bw.bufWriter.buf.length + (ps.map List.length).sum ≤ bw.bufWriter.size →
    writeAll bw w ps =
      ({ bw with bufWriter :=
          { bw.bufWriter with buf := bw.bufWriter.buf ++ ps.flatten } }, w) := by
  induction ps with
  | nil =>
    intro bw w _ _ _
    simp [writeAll]
  | cons p ps ih =>
    intro bw w hs he hf
    have hfit : bw.bufWriter.buf.length + p.length ≤ bw.bufWriter.size := by
      simp only [List.map_cons, List.sum_cons] at hf; omega
    have hwr := BufioWriter.write_fits bw.bufWriter w p he hfit
    simp only [writeAll, BufferedWriter.Write, hs, if_pos, hwr]
    rw [ih _ _ (by simp [hs]) (by simp [he]) ?_]
    · simp [List.append_assoc]
    · simp only [List.map_cons, List.sum_cons] at hf
      simp [List.length_append]
      omega

end Xlog

namespace Xlog

/-- A `Write` on an unstopped writer either succeeds, or leaves the
accumulator reset to a clean empty state. -/
theorem BufferedWriter.Write_cases (bw : BufferedWriter) (w : MockSink)
    (p : List Nat) :
    (bw.Write w p).2.2.2 = none ∨
    ((bw.Write w p).1.bufWriter.buf = [] ∧
      (bw.Write w p).1.bufWriter.err = none) := by
  unfold BufferedWriter.Write
  by_cases hs : bw.stopped = false
  · rw [if_pos hs]
    rcases hr : bw.bufWriter.write w p with ⟨b1, w1, n, e0⟩
    cases e0 with
    | some e1 => right; simp [BufioWriter.Reset]
    | none => left; rfl
  · rw [if_neg hs]; left; rfl

/-- A second `Stop` is a no-op. -/
theorem BufferedWriter.Stop_of_stopped (bw : BufferedWriter) (w : MockSink)
    (h : bw.stopped = true) : bw.Stop w = (bw, w, []) := by
  unfold BufferedWriter.Stop
  rw [if_neg (by simp [h])]

/-- The sink `Stop` hands the final flush. -/
theorem BufferedWriter.Stop_sink (bw : BufferedWriter) (w : MockSink)
    (h : bw.stopped = false) :
    (bw.Stop w).2.1 =
      (BufferedWriter.flush { bw with stopped := true, timerRunning := false } w).2 := by
  unfold BufferedWriter.Stop
  rw [if_pos h]

/-! ## Claims about the buffered writer -/

/-- Claim C5: a failed push to the wrapped sink (from `Write` or from
`flush`) leaves the accumulator reset to a clean empty state with the
error cleared — the error was returned once to that caller — and from a
clean state a write whose pushes succeed returns its full byte count
and no error. -/
theorem bufferedWriter_error_not_sticky (bw : BufferedWriter) (w : MockSink)
    (p : List Nat) :
    ((bw.Write w p).2.2.2 ≠ none →
      (bw.Write w p).1.bufWriter.buf = [] ∧
      (bw.Write w p).1.bufWriter.err = none) ∧
    ((bw.flush w).1.bufWriter.buf = [] ∧
      (bw.flush w).1.bufWriter.err = none) ∧
    (bw.stopped = false → bw.bufWriter.buf = [] → bw.bufWriter.err = none →
      w.script = [] →
      (bw.Write w p).2.2.1 = p.length ∧ (bw.Write w p).2.2.2 = none) := by
  refine ⟨?_, ⟨(BufferedWriter.flush_fields bw w).1,
    (BufferedWriter.flush_fields bw w).2.1⟩, ?_⟩
  · intro hne
    rcases BufferedWriter.Write_cases bw w p with hok | hreset
    · exact absurd hok hne
    · exact hreset
  · intro hs hbuf herr hscript
    have hbw : bw.bufWriter = ⟨bw.bufWriter.size, [], none⟩ := by
      rcases hbwx : bw.bufWriter with ⟨sz, bf, er⟩
      rw [hbwx] at hbuf herr
      simp only at hbuf herr
      rw [hbuf, herr]
    unfold BufferedWriter.Write
    rw [if_pos hs, hbw]
    have h1 := BufioWriter.write_clean_ok bw.bufWriter.size w p hscript
    rcases hr : BufioWriter.write ⟨bw.bufWriter.size, [], none⟩ w p
      with ⟨b1, w1, n, e0⟩
    rw [hr] at h1
    obtain ⟨hn, he0⟩ := h1
    simp only at hn he0
    rw [he0]
    exact ⟨hn, rfl⟩

/-- Witness for C5: a size-2 writer whose first push fails (error
surfaced, accumulator reset), after which a 2-byte write succeeds in
full. -/
theorem bufferedWriter_error_not_sticky_witness :
    (bwW.Write wFail [1, 2, 3]).2.2.2 ≠ none ∧
    ((bwW.Write wFail [1, 2, 3]).1.bufWriter.buf = [] ∧
      (bwW.Write wFail [1, 2, 3]).1.bufWriter.err = none) ∧
    ((BufferedWriter.Write (bwW.Write wFail [1, 2, 3]).1
        (bwW.Write wFail [1, 2, 3]).2.1 [4, 5]).2.2.1 = 2 ∧
      (BufferedWriter.Write (bwW.Write wFail [1, 2, 3]).1
        (bwW.Write wFail [1, 2, 3]).2.1 [4, 5]).2.2.2 = none) := by
  refine ⟨by decide,
    (bufferedWriter_error_not_sticky bwW wFail [1, 2, 3]).1 (by decide), ?_⟩
  have h := (bufferedWriter_error_not_sticky (bwW.Write wFail [1, 2, 3]).1
    (bwW.Write wFail [1, 2, 3]).2.1 [4, 5]).2.2
    (by decide) (by decide) (by decide) (by decide)
  exact ⟨h.1, h.2⟩

/-- Claim C6: after `Stop`, every `Write` is a no-op returning zero
bytes and no error, touching neither the accumulator nor the sink. -/
theorem bufferedWriter_write_after_stop (bw : BufferedWriter) (w : MockSink)
    (p : List Nat) (h : bw.stopped = true) :
    bw.Write w p = (bw, w, 0, none) := by
  unfold BufferedWriter.Write
  rw [if_neg (by simp [h])]

/-- Witness for C6 on a concrete stopped writer. -/
theorem bufferedWriter_write_after_stop_witness :
    bwStopped.stopped = true ∧
    bwStopped.Write startSink [7] = (bwStopped, startSink, 0, none) :=
  ⟨rfl, bufferedWriter_write_after_stop bwStopped startSink [7] rfl⟩

/-- Claim C7: the first `Stop` performs, in order: set the stopped
flag, join the timer goroutine, final flush (the returned state is the
flush of the already-stopped writer, so the flush happens last); the
result is stopped with the timer gone, and every later `Stop` changes
nothing and performs no action. -/
theorem bufferedWriter_stop_idempotent (bw : BufferedWriter) (w : MockSink) :
    (bw.stopped = false →
      bw.Stop w =
        ((BufferedWriter.flush { bw with stopped := true, timerRunning := false } w).1,
         (BufferedWriter.flush { bw with stopped := true, timerRunning := false } w).2,
         [StopEv.SetStopped, StopEv.JoinTimer, StopEv.FinalFlush])) ∧
    (bw.Stop w).1.stopped = true ∧
    (bw.stopped = false → (bw.Stop w).1.timerRunning = false) ∧
    BufferedWriter.Stop (bw.Stop w).1 (bw.Stop w).2.1 =
      ((bw.Stop w).1, (bw.Stop w).2.1, []) := by
  have hstop : (bw.Stop w).1.stopped = true := by
    cases hb : bw.stopped with
    | false =>
      unfold BufferedWriter.Stop
      rw [if_pos hb]
      have := (BufferedWriter.flush_fields
        { bw with stopped := true, timerRunning := false } w).2.2.1
      simpa using this
    | true =>
      rw [BufferedWriter.Stop_of_stopped bw w hb]
      exact hb
  refine ⟨?_, hstop, ?_, BufferedWriter.Stop_of_stopped _ _ hstop⟩
  · intro hs
    unfold BufferedWriter.Stop
    rw [if_pos hs]
  · intro hs
    unfold BufferedWriter.Stop
    rw [if_pos hs]
    have := (BufferedWriter.flush_fields
      { bw with stopped := true, timerRunning := false } w).2.2.2.1
    simpa using this

/-- Witness for C7 on a concrete writer: first call runs the three
actions in order, second call does nothing. -/
theorem bufferedWriter_stop_idempotent_witness :
    bwW.stopped = false ∧
    (bwW.Stop startSink).2.2 =
      [StopEv.SetStopped, StopEv.JoinTimer, StopEv.FinalFlush] ∧
    BufferedWriter.Stop (bwW.Stop startSink).1 (bwW.Stop startSink).2.1 =
      ((bwW.Stop startSink).1, (bwW.Stop startSink).2.1, []) := by
  have h := bufferedWriter_stop_idempotent bwW startSink
  exact ⟨rfl, by decide, h.2.2.2⟩

/-- Claim C8: with the timer disabled and writes totalling fewer bytes
than the buffer size, nothing reaches the wrapped sink, the bytes sit
in the accumulator, and `Stop` then pushes exactly those bytes. -/
theorem bufferedWriter_buffers_until_stop (S : Nat) (ps : List (List Nat))
    (h : (ps.map List.length).sum < S) :
    (NewBufferedWriter S 0).timerRunning = false ∧
    (writeAll (NewBufferedWriter S 0) startSink ps).2.written = [] ∧
    (writeAll (NewBufferedWriter S 0) startSink ps).1.bufWriter.buf = ps.flatten ∧
    (BufferedWriter.Stop (writeAll (NewBufferedWriter S 0) startSink ps).1
      (writeAll (NewBufferedWriter S 0) startSink ps).2).2.1.written =
      ps.flatten := by
  have hS : ¬ S = 0 := by omega
  have hwa := writeAll_fits ps (NewBufferedWriter S 0) startSink rfl rfl
    (by simp [NewBufferedWriter, NewWriterSize, hS]; omega)
  refine ⟨by simp [NewBufferedWriter], ?_, ?_, ?_⟩
  · rw [hwa]; rfl
  · rw [hwa]; simp [NewBufferedWriter, NewWriterSize]
  · rw [hwa]
    rw [BufferedWriter.Stop_sink _ _ rfl]
    rw [BufferedWriter.flush_ok _ _
      (by simp [NewBufferedWriter, NewWriterSize]) rfl]
    simp [startSink, NewBufferedWriter, NewWriterSize]

/-- Witness for C8: the concrete scenario of the spec — size 2, flush
interval 0, one write of the single byte 10; the sink sees nothing
until `Stop`, which delivers exactly that byte. -/
theorem bufferedWriter_buffers_until_stop_witness :
    (([[10]] : List (List Nat)).map List.length).sum < 2 ∧
    (writeAll (NewBufferedWriter 2 0) startSink [[10]]).2.written = [] ∧
    (BufferedWriter.Stop (writeAll (NewBufferedWriter 2 0) startSink [[10]]).1
      (writeAll (NewBufferedWriter 2 0) startSink [[10]]).2).2.1.written =
      [10] := by
  have h := bufferedWriter_buffers_until_stop 2 [[10]] (by decide)
  exact ⟨by decide, h.2.1, by simpa using h.2.2.2⟩

end Xlog
